import Mathlib

/-!
Verification development for the ohm heightmap and voxel-block compression
core. The repository ships `src/ohm/Heightmap.h` (interface and detailed
behavioural documentation), `src/tests/ohmtest/CompressionTests.cpp` (the
compression queue's deterministic test), a query detail header and a
heightmap-to-image utility. The bodies of `Heightmap.cpp`,
`VoxelBlockCompressionQueue` and `UpAxis` are not part of the staged files,
so the executable definitions below are modelled from the specification's
wording (and, where the test pins a boundary the prose leaves loose, from
the test's expectations), as noted on each definition.
-/

namespace Ohm

/-- Classification of a source-map voxel after thresholding its occupancy
log-odds: occupied, free, or unknown (never observed / uncertain). -/
inductive VoxelState where
  | occupied : VoxelState
  | free : VoxelState
  | unknown : VoxelState
deriving DecidableEq, Repr

/-- Number of consecutive non-occupied voxels at the head of a column
segment. Both free and unknown voxels count: the column scan of the
selection rule stops only at an occupied voxel. -/
def clearRun : List VoxelState → Nat
  | [] => 0
  | VoxelState.occupied :: _ => 0
  | _ :: rest => clearRun rest + 1

/-- Modelled from the spec: the column selection rule of section 4.D of the
spec (the body of `Heightmap.cpp` is not among the staged files). The
column is the list of source voxels of the search range, listed from the
base of the range going up along the up axis; entry `(i, c)` of the result
is the index of the supporting occupied voxel and its reported clearance.
The first occupied voxel is the provisional support; the free run above it
is measured, and the provisional is committed when the run reaches
`min_clearance` or the end of the search range (unbounded free space), and
otherwise invalidated in favour of the next occupied voxel. `res` is the
voxel resolution, so a run of `n` voxels measures `res * n` of clearance. -/
def findSupport (res mc : ℚ) : List VoxelState → Option (Nat × ℚ)
  | [] => none
  | VoxelState.occupied :: rest =>
    let n := clearRun rest
    if n = rest.length ∨ mc ≤ res * (n : ℚ) then some (0, res * (n : ℚ))
    else
      match findSupport res mc (rest.drop n) with
      | some (j, c) => some (j + n + 1, c)
      | none => none
  | _ :: rest =>
    match findSupport res mc rest with
    | some (j, c) => some (j + 1, c)
    | none => none
termination_by col => col.length
decreasing_by
  · simp only [List.length_drop, List.length_cons]
    omega
  · simp only [List.length_cons]
    omega

/-- Does index `j` of the column hold a virtual-surface candidate: a free
voxel whose immediate neighbour below (one step down the up axis) is an
unknown voxel? -/
def isVirtualAt (col : List VoxelState) (j : Nat) : Bool :=
  decide (1 ≤ j) && decide (col.get? j = some VoxelState.free) &&
    decide (col.get? (j - 1) = some VoxelState.unknown)

/-- Scan for the lowest virtual-surface candidate at index `j` or above;
the list argument is a fuel mirroring the unscanned part of the column. -/
def lowestVirtualFrom (col : List VoxelState) : Nat → List VoxelState → Option Nat
  | _, [] => none
  | j, _ :: rest => if isVirtualAt col j then some j else lowestVirtualFrom col (j + 1) rest

/-- Modelled from the spec: the lowest free voxel of the column whose
immediate neighbour below is unknown (spec section 4.D, selection rule
step 3; the body of `Heightmap.cpp` is not among the staged files). -/
def lowestVirtual (col : List VoxelState) : Option Nat :=
  lowestVirtualFrom col 0 col

/-- One cell of the generated heightmap: the occupancy-layer sentinel value
(`+1` real surface, `-1` virtual surface, `0` vacant) together with the
`HeightmapVoxel` record fields `height` and `clearance`. -/
structure HeightmapCell where
  occupancy : ℚ
  height : ℚ
  clearance : ℚ
deriving DecidableEq, Repr

/-- Modelled from the spec: the per-column output of the column selector
(spec sections 4.D and 3). A committed support is written with sentinel
`+1` at its absolute height; failing that, with virtual surfaces enabled,
the lowest free-over-unknown voxel is written with sentinel `-1` and
clearance `0`; otherwise the column is vacant. `base` is the absolute
height (along the up axis) of the column entry at index `0`. -/
def selectColumn (res mc : ℚ) (virt : Bool) (base : ℚ) (col : List VoxelState) :
    HeightmapCell :=
  match findSupport res mc col with
  | some (i, c) => ⟨1, base + (i : ℚ) * res, c⟩
  | none =>
    if virt then
      match lowestVirtual col with
      | some j => ⟨-1, base + (j : ℚ) * res, 0⟩
      | none => ⟨0, 0, 0⟩
    else ⟨0, 0, 0⟩

/-- The up axis identifier: exactly one signed primary world axis
(`UpAxis` of `src/ohm/UpAxis.h`, referenced from `src/ohm/Heightmap.h`). -/
inductive UpAxis where
  | kX : UpAxis
  | kY : UpAxis
  | kZ : UpAxis
  | kNegX : UpAxis
  | kNegY : UpAxis
  | kNegZ : UpAxis
deriving DecidableEq, Repr

/-- The axis with the opposite sign. -/
def negAxis : UpAxis → UpAxis
  | UpAxis.kX => UpAxis.kNegX
  | UpAxis.kY => UpAxis.kNegY
  | UpAxis.kZ => UpAxis.kNegZ
  | UpAxis.kNegX => UpAxis.kX
  | UpAxis.kNegY => UpAxis.kY
  | UpAxis.kNegZ => UpAxis.kZ

/-- Component index of the up axis in XYZ, ignoring the sign
(`Heightmap::upAxisIndex` of `src/ohm/Heightmap.h`). -/
def upAxisIndexN : UpAxis → Nat
  | UpAxis.kX => 0
  | UpAxis.kNegX => 0
  | UpAxis.kY => 1
  | UpAxis.kNegY => 1
  | UpAxis.kZ => 2
  | UpAxis.kNegZ => 2

/-- Sign of the up axis: world coordinates along the axis grow by this
factor per unit of stored height. -/
def upSign : UpAxis → ℚ
  | UpAxis.kX => 1
  | UpAxis.kY => 1
  | UpAxis.kZ => 1
  | UpAxis.kNegX => -1
  | UpAxis.kNegY => -1
  | UpAxis.kNegZ => -1

/-- An integer 3-vector, sufficient for the axis-aligned unit basis
vectors returned by the static basis mapping. -/
structure V3 where
  x : Int
  y : Int
  z : Int
deriving DecidableEq, Repr

/-- Cross product of two integer 3-vectors. -/
def cross (u v : V3) : V3 :=
  ⟨u.y * v.z - u.z * v.y, u.z * v.x - u.x * v.z, u.x * v.y - u.y * v.x⟩

/-- Componentwise negation. -/
def negV (v : V3) : V3 := ⟨-v.x, -v.y, -v.z⟩

/-- Squared Euclidean norm. -/
def normSq (v : V3) : Int := v.x * v.x + v.y * v.y + v.z * v.z

/-- Modelled from the spec: the up normal of the static basis mapping
(`Heightmap::upAxisNormal` is declared at `src/ohm/Heightmap.h:235` but its
body is not among the staged files). Spec section 4.A: negative axes
invert the up normal. -/
def upAxisNormal : UpAxis → V3
  | UpAxis.kX => ⟨1, 0, 0⟩
  | UpAxis.kY => ⟨0, 1, 0⟩
  | UpAxis.kZ => ⟨0, 0, 1⟩
  | UpAxis.kNegX => ⟨-1, 0, 0⟩
  | UpAxis.kNegY => ⟨0, -1, 0⟩
  | UpAxis.kNegZ => ⟨0, 0, -1⟩

/-- Modelled from the spec: the first in-plane surface axis of the basis
mapping (`Heightmap::surfaceAxisA`, declaration only in the staged files).
Chosen with `surfaceAxisB` so that `cross(axis_a, axis_b) = up_normal`
exactly, as spec section 4.A requires. -/
def surfaceAxisA : UpAxis → V3
  | UpAxis.kX => ⟨0, 1, 0⟩
  | UpAxis.kY => ⟨0, 0, 1⟩
  | UpAxis.kZ => ⟨1, 0, 0⟩
  | UpAxis.kNegX => ⟨0, 0, 1⟩
  | UpAxis.kNegY => ⟨1, 0, 0⟩
  | UpAxis.kNegZ => ⟨0, 1, 0⟩

/-- Modelled from the spec: the second in-plane surface axis of the basis
mapping (`Heightmap::surfaceAxisB`, declaration only in the staged files). -/
def surfaceAxisB : UpAxis → V3
  | UpAxis.kX => ⟨0, 0, 1⟩
  | UpAxis.kY => ⟨1, 0, 0⟩
  | UpAxis.kZ => ⟨0, 1, 0⟩
  | UpAxis.kNegX => ⟨0, 1, 0⟩
  | UpAxis.kNegY => ⟨0, 0, 1⟩
  | UpAxis.kNegZ => ⟨1, 0, 0⟩

/-- A voxel key of the heightmap's address space: an integer region
coordinate and a non-negative local voxel coordinate per world axis
(`ohm::Key`, used by `Heightmap::project` at `src/ohm/Heightmap.h:305`). -/
structure Key where
  regionX : Int
  regionY : Int
  regionZ : Int
  localX : Nat
  localY : Nat
  localZ : Nat
deriving DecidableEq, Repr

/-- Modelled from the spec: `Heightmap::project` (declared at
`src/ohm/Heightmap.h:302`, body not among the staged files). Spec section
4.C: collapse the up-axis component of the key to the heightmap's single
slice, leaving a key that addresses a valid heightmap cell. -/
def project (axis : UpAxis) (k : Key) : Key :=
  match upAxisIndexN axis with
  | 0 => { k with regionX := 0, localX := 0 }
  | 1 => { k with regionY := 0, localY := 0 }
  | _ => { k with regionZ := 0, localZ := 0 }

/-- The local voxel coordinate of a key along the up axis. -/
def localUpCoord (axis : UpAxis) (k : Key) : Nat :=
  match upAxisIndexN axis with
  | 0 => k.localX
  | 1 => k.localY
  | _ => k.localZ

/-- The region coordinate of a key along the up axis. -/
def regionUpCoord (axis : UpAxis) (k : Key) : Int :=
  match upAxisIndexN axis with
  | 0 => k.regionX
  | 1 => k.regionY
  | _ => k.regionZ

/-- `Heightmap::kDefaultRegionSize` of `src/ohm/Heightmap.h:90`: the 2D
voxel extent used for heightmap regions when none is requested. -/
def kDefaultRegionSize : Nat := 128

/-- Construction parameters carried by a heightmap, as configured by the
`Heightmap` constructor and setters of `src/ohm/Heightmap.h`. -/
structure HeightmapCfg where
  resolution : ℚ
  minClearance : ℚ
  ceiling : ℚ
  upAxis : UpAxis
  generateVirtualSurface : Bool
  regionSize : Nat
  regionDimX : Nat
  regionDimY : Nat
  regionDimZ : Nat
deriving DecidableEq, Repr

/-- Modelled from the spec: the `Heightmap(grid_resolution, min_clearance,
up_axis, region_size)` constructor (declared at `src/ohm/Heightmap.h:107`
with default argument `region_size = 0`, body not among the staged files).
A zero `region_size` falls back to `kDefaultRegionSize`; heightmap regions
are one voxel deep along the up axis and `region_size` voxels wide along
the two surface axes (spec section 3). -/
def mkHeightmap (res mc : ℚ) (axis : UpAxis) (regionSize : Nat) : HeightmapCfg :=
  let e := if regionSize = 0 then kDefaultRegionSize else regionSize
  match upAxisIndexN axis with
  | 0 => ⟨res, mc, 0, axis, false, e, 1, e, e⟩
  | 1 => ⟨res, mc, 0, axis, false, e, e, 1, e⟩
  | _ => ⟨res, mc, 0, axis, false, e, e, e, 1⟩

/-- The region voxel dimension of a heightmap along world axis `i`. -/
def regionDimAlong (cfg : HeightmapCfg) (i : Nat) : Nat :=
  match i with
  | 0 => cfg.regionDimX
  | 1 => cfg.regionDimY
  | _ => cfg.regionDimZ

/-- A 2D column index on the heightmap surface plane. -/
abbrev ColIndex := Int × Int

/-- The source occupancy map as consumed by a build: for each in-plane
column of the traversal, its 2D index, the absolute height of the base of
its search range, and the voxel states of the search range going up. The
truncation of each column to the search range (ceiling, cull box) is
performed by the traversal driver that produced this list. -/
structure BuildInput where
  columns : List (ColIndex × ℚ × List VoxelState)
deriving DecidableEq, Repr

/-- The generated heightmap grid, one cell per processed column. -/
abbrev HeightmapGrid := List (ColIndex × HeightmapCell)

/-- Build-time parameter validation (spec sections 4.F and 7):
`min_clearance < 0`, `ceiling < 0` or `region_size == 0` are fatal. -/
def validParams (cfg : HeightmapCfg) : Bool :=
  decide (0 ≤ cfg.minClearance) && decide (0 ≤ cfg.ceiling) && decide (0 < cfg.regionSize)

/-- Modelled from the spec: `Heightmap::buildHeightmap` (declared at
`src/ohm/Heightmap.h:254`, body not among the staged files). Spec section
4.F: refuse if no source map is set or a parameter is invalid, leaving the
grid as it was; otherwise run the column selector over every column of the
traversal and return the fresh grid with success. -/
def buildHeightmap (src : Option BuildInput) (cfg : HeightmapCfg) (hm : HeightmapGrid) :
    Bool × HeightmapGrid :=
  match src with
  | none => (false, hm)
  | some s =>
    if validParams cfg then
      (true, s.columns.map fun e =>
        (e.1, selectColumn cfg.resolution cfg.minClearance cfg.generateVirtualSurface
          e.2.1 e.2.2))
    else (false, hm)

/-- A heightmap voxel as consulted by `getHeightmapVoxelPosition`: the
occupancy sentinel (`none` for an uncertain voxel that was never touched),
the stored `HeightmapVoxel` fields, and the voxel's cell-centre coordinates
on the surface plane (along surface axes `a` and `b`). -/
structure HMQueryVoxel where
  occupancy : Option ℚ
  height : ℚ
  clearance : ℚ
  cellA : ℚ
  cellB : ℚ
deriving DecidableEq, Repr

/-- The result of a voxel position query: the validity flag and the
reconstructed position given as surface-plane coordinates plus the
up-axis component. -/
structure VoxelPosResult where
  valid : Bool
  posA : ℚ
  posB : ℚ
  posUp : ℚ
deriving DecidableEq, Repr

/-- Modelled from the spec: `Heightmap::getHeightmapVoxelPosition`
(declared at `src/ohm/Heightmap.h:283`, body not among the staged files).
Spec section 4.E: the base position is the cell centre on the surface
plane; the up component is the stored height mapped through the signed up
axis; and a virtual or uncertain voxel whose squared 2D distance from the
reference position is below the squared negative-obstacle radius instead
reports `ref_up - (r^2 - d^2) / r`, the downward parabola used as a
negative-obstacle slope signal. Such a voxel is reported as relevant, as
is any real or virtual surface voxel. -/
def getHeightmapVoxelPosition (axis : UpAxis) (v : HMQueryVoxel)
    (refA refB refUp r : ℚ) : VoxelPosResult :=
  let d2 := (v.cellA - refA) ^ 2 + (v.cellB - refB) ^ 2
  if (v.occupancy = none ∨ v.occupancy = some (-1)) ∧ d2 < r ^ 2 then
    ⟨true, v.cellA, v.cellB, refUp - (r ^ 2 - d2) / r⟩
  else
    ⟨decide (v.occupancy = some 1) || decide (v.occupancy = some (-1)),
      v.cellA, v.cellB, upSign axis * v.height⟩

/-- A registered voxel block as tracked by the compression queue
(`ohm::VoxelBlock`, exercised by `src/tests/ohmtest/CompressionTests.cpp`):
the byte size of its uncompressed layer memory, the byte size its payload
compresses to, the `Uncompressed` flag, and the retain reference count. -/
structure VoxelBlock where
  uncompressedSize : Nat
  compressedSize : Nat
  uncompressed : Bool
  refCount : Nat
deriving DecidableEq, Repr

/-- The bytes a block currently accounts for: its uncompressed size while
uncompressed, its compressed size once compressed. -/
def blockBytes (b : VoxelBlock) : Nat :=
  if b.uncompressed then b.uncompressedSize else b.compressedSize

/-- The `Locked` flag: a block is retained (locked) exactly while its
reference count is positive (spec section 3). -/
def locked (b : VoxelBlock) : Bool := decide (0 < b.refCount)

/-- A block the regulator may compress: uncompressed with a zero reference
count (spec section 4.B, regulator step 3). -/
def eligible (b : VoxelBlock) : Bool := b.uncompressed && decide (b.refCount = 0)

/-- Modelled from the spec: `VoxelBlock::retain` (spec section 4.B). Bump
the reference count; a compressed block is decompressed synchronously, so
the block is uncompressed on return. -/
def retain (b : VoxelBlock) : VoxelBlock :=
  { b with refCount := b.refCount + 1, uncompressed := true }

/-- Modelled from the spec: `VoxelBlock::release` (spec section 4.B).
Decrement the reference count; a block at zero becomes eligible for
compression on a later regulator pass. -/
def release (b : VoxelBlock) : VoxelBlock :=
  { b with refCount := b.refCount - 1 }

/-- The compression queue: the registered blocks in registration order
(the order the regulator visits them in) and the two watermarks
(`ohm::VoxelBlockCompressionQueue`, exercised by
`src/tests/ohmtest/CompressionTests.cpp`). -/
structure VoxelBlockCompressionQueue where
  blocks : List VoxelBlock
  highWater : Nat
  lowWater : Nat
deriving DecidableEq, Repr

/-- `VoxelBlockCompressionQueue::push`: register a block. -/
def push (q : VoxelBlockCompressionQueue) (b : VoxelBlock) : VoxelBlockCompressionQueue :=
  { q with blocks := q.blocks ++ [b] }

/-- `VoxelBlockCompressionQueue::estimatedAllocationSize`: the sum of the
per-block byte sizes (spec section 4.B). -/
def estimatedAllocationSize (q : VoxelBlockCompressionQueue) : Nat :=
  (q.blocks.map blockBytes).sum

/-- One compression: drop the uncompressed payload, keeping the compressed
bytes. -/
def compressBlock (b : VoxelBlock) : VoxelBlock := { b with uncompressed := false }

/-- Modelled from the spec and the staged test: the regulator's compression
sweep (spec section 4.B, regulator steps 3 and 4). Walk the blocks in
order, compressing each eligible one and updating the running allocation
size `s`; compression continues while `s` is still at or above the low
watermark. `CompressionTests.cpp:107-116` pins the boundary: with every
block uncompressed at `L` bytes and the low watermark at `L * i`, one tick
compresses one more block, so a pass with `s` equal to the low watermark
still compresses. -/
def tickLoop (low : Nat) : Nat → List VoxelBlock → List VoxelBlock
  | _, [] => []
  | s, b :: rest =>
    if s < low then b :: rest
    else if eligible b then
      compressBlock b :: tickLoop low (s - (b.uncompressedSize - b.compressedSize)) rest
    else b :: tickLoop low s rest

/-- Modelled from the spec: `VoxelBlockCompressionQueue::__tick` in test
mode (spec section 4.B): snapshot the estimated allocation size, do
nothing when it is at or below the high watermark, and otherwise run the
compression sweep down towards the low watermark. -/
def tick (q : VoxelBlockCompressionQueue) : VoxelBlockCompressionQueue :=
  if estimatedAllocationSize q ≤ q.highWater then q
  else { q with blocks := tickLoop q.lowWater (estimatedAllocationSize q) q.blocks }

/-- Number of blocks currently holding their uncompressed payload. -/
def countUncompressed (l : List VoxelBlock) : Nat :=
  (l.filter fun b => b.uncompressed).length

/-- The queue state of the staged test's watermark loop
(`CompressionTests.cpp:107-116`): ten registered blocks of `L` bytes each,
all uncompressed and unretained, each compressing to `c` bytes, with a
zero high watermark and the low watermark at `k * L`. -/
def mkQueue10 (L c k : Nat) : VoxelBlockCompressionQueue :=
  ⟨List.replicate 10 ⟨L, c, true, 0⟩, 0, k * L⟩

/-- A concrete heightmap configuration used by witness statements:
resolution `1`, minimum clearance `1`, up axis `+Z`, virtual surfaces
disabled, default region size. -/
def exCfg : HeightmapCfg := ⟨1, 1, 0, UpAxis.kZ, false, 128, 128, 128, 1⟩

/-- `exCfg` with virtual surface generation enabled. -/
def exCfgVirt : HeightmapCfg := ⟨1, 1, 0, UpAxis.kZ, true, 128, 128, 128, 1⟩

/-- A one-column source with a floor voxel and two free voxels above it. -/
def exSrcReal : BuildInput :=
  ⟨[((0, 0), 0, [VoxelState.occupied, VoxelState.free, VoxelState.free])]⟩

/-- A one-column source whose column is free above an unknown voxel. -/
def exSrcVirt : BuildInput :=
  ⟨[((0, 0), 0, [VoxelState.unknown, VoxelState.free, VoxelState.free])]⟩

section Lemmas

/-- `clearRun` never exceeds the segment length. -/
lemma clearRun_le_length : ∀ l : List VoxelState, clearRun l ≤ l.length := by
  intro l
  induction l with
  | nil => simp [clearRun]
  | cons v rest ih => cases v <;> simp [clearRun] <;> omega

/-- A non-occupied head extends the clear run by one. -/
lemma clearRun_cons_nonocc (v : VoxelState) (rest : List VoxelState)
    (hv : v ≠ VoxelState.occupied) : clearRun (v :: rest) = clearRun rest + 1 := by
  cases v with
  | occupied => exact absurd rfl hv
  | free => rfl
  | unknown => rfl

/-- Every position below the clear run holds a non-occupied voxel. -/
lemma clearRun_prefix : ∀ (l : List VoxelState) (t : Nat), t < clearRun l →
    ∃ v, l.get? t = some v ∧ v ≠ VoxelState.occupied := by
  intro l
  induction l with
  | nil => intro t ht; simp [clearRun] at ht
  | cons v rest ih =>
    intro t ht
    cases v with
    | occupied => simp [clearRun] at ht
    | free =>
      cases t with
      | zero => exact ⟨VoxelState.free, rfl, by simp⟩
      | succ t' =>
        simp only [clearRun] at ht
        simpa using ih t' (by omega)
    | unknown =>
      cases t with
      | zero => exact ⟨VoxelState.unknown, rfl, by simp⟩
      | succ t' =>
        simp only [clearRun] at ht
        simpa using ih t' (by omega)

/-- A clear run shorter than the segment ends at an occupied voxel. -/
lemma clearRun_get : ∀ l : List VoxelState, clearRun l < l.length →
    l.get? (clearRun l) = some VoxelState.occupied := by
  intro l
  induction l with
  | nil => intro h; simp [clearRun] at h
  | cons v rest ih =>
    intro h
    cases v with
    | occupied => rfl
    | free =>
      simp only [clearRun, List.length_cons] at h ⊢
      simpa using ih (by omega)
    | unknown =>
      simp only [clearRun, List.length_cons] at h ⊢
      simpa using ih (by omega)

/-- If the first `m` positions are all non-occupied, the clear run reaches
at least `m`. -/
lemma clearRun_ge : ∀ (l : List VoxelState) (m : Nat),
    (∀ t, t < m → ∃ v, l.get? t = some v ∧ v ≠ VoxelState.occupied) →
    m ≤ clearRun l := by
  intro l
  induction l with
  | nil =>
    intro m h
    cases m with
    | zero => simp
    | succ m' =>
      obtain ⟨v, hv, -⟩ := h 0 (by omega)
      simp at hv
  | cons v rest ih =>
    intro m h
    cases m with
    | zero => simp
    | succ m' =>
      obtain ⟨v0, hv0, hne⟩ := h 0 (by omega)
      simp only [List.get?] at hv0
      injection hv0 with hv0
      subst hv0
      rw [clearRun_cons_nonocc v rest hne]
      have := ih m' (fun t ht => by simpa using h (t + 1) (by omega))
      omega

/-- A fully non-occupied segment has a clear run of its full length. -/
lemma clearRun_eq_of_all (l : List VoxelState)
    (h : ∀ t, t < l.length → ∃ v, l.get? t = some v ∧ v ≠ VoxelState.occupied) :
    clearRun l = l.length :=
  le_antisymm (clearRun_le_length l) (clearRun_ge l l.length h)

/-- Soundness of the column selection rule, bounded by a fuel on the
column length: a committed support is an occupied voxel whose clear run
above either measures at least the minimum clearance or reaches the end of
the search range, the latter reported with the bounded measurement or the
zero sentinel. -/
lemma findSupport_sound_aux (res mc : ℚ) :
    ∀ (n : Nat) (col : List VoxelState), col.length ≤ n → ∀ (i : Nat) (c : ℚ),
      findSupport res mc col = some (i, c) →
      col.get? i = some VoxelState.occupied ∧
        (mc ≤ res * (clearRun (List.drop (i + 1) col) : ℚ) ∨
          (i + 1 + clearRun (List.drop (i + 1) col) = col.length ∧
            (c = res * (clearRun (List.drop (i + 1) col) : ℚ) ∨ c = 0))) := by
  intro n
  induction n with
  | zero =>
    intro col hlen i c h
    have hnil : col = [] := List.length_eq_zero.mp (by omega)
    subst hnil
    simp [findSupport] at h
  | succ n ih =>
    intro col hlen i c h
    cases col with
    | nil => simp [findSupport] at h
    | cons v rest =>
      cases v with
      | occupied =>
        rw [findSupport.eq_2] at h
        by_cases hcommit : clearRun rest = rest.length ∨ mc ≤ res * (clearRun rest : ℚ)
        · rw [if_pos hcommit] at h
          injection h with h
          injection h with h1 h2
          subst h1
          subst h2
          refine ⟨rfl, ?_⟩
          have hdrop : List.drop (0 + 1) (VoxelState.occupied :: rest) = rest := rfl
          rw [hdrop]
          rcases hcommit with hend | hmc
          · right
            refine ⟨by simp [hend]; omega, Or.inl rfl⟩
          · left
            exact hmc
        · rw [if_neg hcommit] at h
          push_neg at hcommit
          obtain ⟨hne, hmc⟩ := hcommit
          have hn0lt : clearRun rest < rest.length :=
            lt_of_le_of_ne (clearRun_le_length rest) hne
          cases hrec : findSupport res mc (rest.drop (clearRun rest)) with
          | none => rw [hrec] at h; simp at h
          | some jc =>
            obtain ⟨j, c'⟩ := jc
            rw [hrec] at h
            simp only [] at h
            injection h with h
            injection h with h1 h2
            subst h1
            subst h2
            have hlen' : (rest.drop (clearRun rest)).length ≤ n := by
              simp only [List.length_drop]
              simp only [List.length_cons] at hlen
              omega
            obtain ⟨hocc, harm⟩ := ih (rest.drop (clearRun rest)) hlen' j c' hrec
            have hget : (VoxelState.occupied :: rest).get? (j + clearRun rest + 1) =
                some VoxelState.occupied := by
              rw [List.get?_cons_succ]
              rw [show j + clearRun rest = clearRun rest + j from by omega]
              rw [← List.get?_drop rest (clearRun rest) j]
              exact hocc
            refine ⟨hget, ?_⟩
            have hdropeq : List.drop (j + clearRun rest + 1 + 1)
                (VoxelState.occupied :: rest) =
                List.drop (j + 1) (rest.drop (clearRun rest)) := by
              rw [List.drop_succ_cons]
              rw [List.drop_drop]
              congr 1
              omega
            rw [hdropeq]
            rcases harm with hmc' | ⟨hlen2, hc⟩
            · left; exact hmc'
            · right
              constructor
              · simp only [List.length_drop] at hlen2
                simp only [List.length_cons]
                omega
              · exact hc
      | free =>
        rw [findSupport.eq_3 res mc VoxelState.free rest
          (fun hh => VoxelState.noConfusion hh)] at h
        cases hrec : findSupport res mc rest with
        | none => rw [hrec] at h; simp at h
        | some jc =>
          obtain ⟨j, c'⟩ := jc
          rw [hrec] at h
          simp only [] at h
          injection h with h
          injection h with h1 h2
          subst h1
          subst h2
          have hlen' : rest.length ≤ n := by
            simp only [List.length_cons] at hlen
            omega
          obtain ⟨hocc, harm⟩ := ih rest hlen' j c' hrec
          refine ⟨by simpa using hocc, ?_⟩
          have hdropeq : List.drop (j + 1 + 1) (VoxelState.free :: rest) =
              List.drop (j + 1) rest := List.drop_succ_cons
          rw [hdropeq]
          rcases harm with hmc' | ⟨hlen2, hc⟩
          · left; exact hmc'
          · right
            refine ⟨?_, hc⟩
            simp only [List.length_cons]
            omega
      | unknown =>
        rw [findSupport.eq_3 res mc VoxelState.unknown rest
          (fun hh => VoxelState.noConfusion hh)] at h
        cases hrec : findSupport res mc rest with
        | none => rw [hrec] at h; simp at h
        | some jc =>
          obtain ⟨j, c'⟩ := jc
          rw [hrec] at h
          simp only [] at h
          injection h with h
          injection h with h1 h2
          subst h1
          subst h2
          have hlen' : rest.length ≤ n := by
            simp only [List.length_cons] at hlen
            omega
          obtain ⟨hocc, harm⟩ := ih rest hlen' j c' hrec
          refine ⟨by simpa using hocc, ?_⟩
          have hdropeq : List.drop (j + 1 + 1) (VoxelState.unknown :: rest) =
              List.drop (j + 1) rest := List.drop_succ_cons
          rw [hdropeq]
          rcases harm with hmc' | ⟨hlen2, hc⟩
          · left; exact hmc'
          · right
            refine ⟨?_, hc⟩
            simp only [List.length_cons]
            omega

/-- Soundness of the column selection rule at any column. -/
lemma findSupport_sound (res mc : ℚ) (col : List VoxelState)
    (i : Nat) (c : ℚ) (h : findSupport res mc col = some (i, c)) :
    col.get? i = some VoxelState.occupied ∧
      (mc ≤ res * (clearRun (List.drop (i + 1) col) : ℚ) ∨
        (i + 1 + clearRun (List.drop (i + 1) col) = col.length ∧
          (c = res * (clearRun (List.drop (i + 1) col) : ℚ) ∨ c = 0))) :=
  findSupport_sound_aux res mc col.length col (le_refl _) i c h

/-- Soundness of the virtual-surface scan: a hit is a virtual candidate
and the first one at or after the start index. -/
lemma lowestVirtualFrom_sound (col : List VoxelState) :
    ∀ (l : List VoxelState) (j k : Nat), lowestVirtualFrom col j l = some k →
      j ≤ k ∧ isVirtualAt col k = true ∧
        ∀ t, j ≤ t → t < k → isVirtualAt col t = false := by
  intro l
  induction l with
  | nil => intro j k h; simp [lowestVirtualFrom] at h
  | cons v rest ih =>
    intro j k h
    rw [lowestVirtualFrom] at h
    by_cases hj : isVirtualAt col j
    · rw [if_pos hj] at h
      injection h with h
      subst h
      exact ⟨le_refl _, hj, fun t ht1 ht2 => absurd (lt_of_le_of_lt ht1 ht2) (lt_irrefl _)⟩
    · rw [if_neg hj] at h
      obtain ⟨h1, h2, h3⟩ := ih (j + 1) k h
      refine ⟨by omega, h2, ?_⟩
      intro t ht1 ht2
      rcases Nat.eq_or_lt_of_le ht1 with heq | hlt
      · subst heq
        simpa using hj
      · exact h3 t (by omega) ht2

/-- A heightmap cell with the real-surface sentinel comes from a committed
support of the column selection rule, and inherits its guarantees. -/
lemma selectColumn_real (res mc : ℚ) (virt : Bool) (base : ℚ) (col : List VoxelState)
    (hocc : (selectColumn res mc virt base col).occupancy = 1) :
    ∃ i : Nat, (selectColumn res mc virt base col).height = base + (i : ℚ) * res ∧
      col.get? i = some VoxelState.occupied ∧
      (mc ≤ res * (clearRun (List.drop (i + 1) col) : ℚ) ∨
        (i + 1 + clearRun (List.drop (i + 1) col) = col.length ∧
          ((selectColumn res mc virt base col).clearance =
              res * (clearRun (List.drop (i + 1) col) : ℚ) ∨
            (selectColumn res mc virt base col).clearance = 0))) := by
  cases hf : findSupport res mc col with
  | some ic =>
    obtain ⟨i0, c0⟩ := ic
    obtain ⟨hget, harm⟩ := findSupport_sound res mc col i0 c0 hf
    refine ⟨i0, ?_, hget, ?_⟩
    · simp [selectColumn, hf]
    · rcases harm with hmc | ⟨hl, hc⟩
      · exact Or.inl hmc
      · refine Or.inr ⟨hl, ?_⟩
        simpa [selectColumn, hf] using hc
  | none =>
    exfalso
    by_cases hv : virt
    · cases hlv : lowestVirtual col with
      | some j =>
        rw [selectColumn, hf] at hocc
        simp only [hv, if_true, hlv] at hocc
        norm_num at hocc
      | none =>
        rw [selectColumn, hf] at hocc
        simp only [hv, if_true, hlv] at hocc
        norm_num at hocc
    · rw [selectColumn, hf] at hocc
      simp only [hv, if_false] at hocc
      norm_num at hocc

/-- A heightmap cell with the virtual-surface sentinel comes from the
lowest virtual candidate, with virtual surfaces enabled and the selection
rule having failed to commit any support. -/
lemma selectColumn_virtual (res mc : ℚ) (virt : Bool) (base : ℚ) (col : List VoxelState)
    (hocc : (selectColumn res mc virt base col).occupancy = -1) :
    virt = true ∧ findSupport res mc col = none ∧
      ∃ j : Nat, (selectColumn res mc virt base col).height = base + (j : ℚ) * res ∧
        1 ≤ j ∧ col.get? j = some VoxelState.free ∧
        col.get? (j - 1) = some VoxelState.unknown ∧
        (∀ t, t < j → isVirtualAt col t = false) ∧
        (selectColumn res mc virt base col).clearance = 0 := by
  cases hf : findSupport res mc col with
  | some ic =>
    exfalso
    obtain ⟨i0, c0⟩ := ic
    rw [selectColumn, hf] at hocc
    norm_num at hocc
  | none =>
    by_cases hv : virt
    · cases hlv : lowestVirtual col with
      | some j =>
        obtain ⟨-, hvirt, hmin⟩ := lowestVirtualFrom_sound col col 0 j hlv
        have hvirt' := hvirt
        simp only [isVirtualAt, Bool.and_eq_true, decide_eq_true_eq] at hvirt'
        obtain ⟨⟨hj1, hjfree⟩, hjunk⟩ := hvirt'
        refine ⟨hv, rfl, j, ?_, hj1, hjfree, hjunk, ?_, ?_⟩
        · simp [selectColumn, hf, hv, hlv]
        · intro t ht
          exact hmin t (Nat.zero_le _) ht
        · simp [selectColumn, hf, hv, hlv]
      | none =>
        exfalso
        rw [selectColumn, hf] at hocc
        simp only [hv, if_true, hlv] at hocc
        norm_num at hocc
    · exfalso
      rw [selectColumn, hf] at hocc
      simp only [hv, if_false] at hocc
      norm_num at hocc

/-- A configuration that fails validation makes the build fail without
touching the grid; membership in a successful build's grid lifts to a
source column. -/
lemma buildHeightmap_mem (src : BuildInput) (cfg : HeightmapCfg)
    (hm out : HeightmapGrid) (key : ColIndex) (v : HeightmapCell)
    (hbuild : buildHeightmap (some src) cfg hm = (true, out))
    (hmem : (key, v) ∈ out) :
    ∃ base col, (key, base, col) ∈ src.columns ∧
      v = selectColumn cfg.resolution cfg.minClearance cfg.generateVirtualSurface base col := by
  rw [buildHeightmap] at hbuild
  by_cases hvp : validParams cfg
  · rw [if_pos hvp] at hbuild
    injection hbuild with h1 h2
    subst h2
    obtain ⟨e, he, heq⟩ := List.mem_map.mp hmem
    obtain ⟨k0, b0, c0⟩ := e
    simp only [Prod.mk.injEq] at heq
    obtain ⟨hk, hv⟩ := heq
    subst hk
    exact ⟨b0, c0, he, hv.symm⟩
  · rw [if_neg hvp] at hbuild
    injection hbuild with h1 h2
    exact absurd h1 (by simp)

/-- The regulator sweep leaves a list untouched once the running size is
below the low watermark. -/
lemma tickLoop_stop (low s : Nat) (l : List VoxelBlock) (h : s < low) :
    tickLoop low s l = l := by
  cases l with
  | nil => rfl
  | cons b rest => simp [tickLoop, h]

/-- The regulator sweep never touches a retained block: any block with a
positive reference count is found unchanged at its position. -/
lemma tickLoop_get_retained (low : Nat) :
    ∀ (l : List VoxelBlock) (s i : Nat) (b : VoxelBlock),
      l.get? i = some b → 0 < b.refCount → (tickLoop low s l).get? i = some b := by
  intro l
  induction l with
  | nil => intro s i b h _; simp at h
  | cons hd tl ih =>
    intro s i b h hpos
    by_cases hs : s < low
    · rw [tickLoop_stop low s _ hs]
      exact h
    · by_cases he : eligible hd
      · cases i with
        | zero =>
          exfalso
          simp only [List.get?] at h
          injection h with h
          subst h
          simp only [eligible, Bool.and_eq_true, decide_eq_true_eq] at he
          omega
        | succ j =>
          rw [tickLoop]
          rw [if_neg hs, if_pos he]
          simp only [List.get?_cons_succ] at h ⊢
          exact ih _ j b h hpos
      · cases i with
        | zero =>
          rw [tickLoop, if_neg hs, if_neg he]
          exact h
        | succ j =>
          rw [tickLoop, if_neg hs, if_neg he]
          simp only [List.get?_cons_succ] at h ⊢
          exact ih _ j b h hpos

/-- The allocation estimate of the test queue: ten uncompressed blocks of
`L` bytes each. -/
lemma estSize_mkQueue10 (L c k : Nat) :
    estimatedAllocationSize (mkQueue10 L c k) = 10 * L := by
  simp only [estimatedAllocationSize, mkQueue10, List.map_replicate, List.sum_replicate,
    blockBytes, if_true, smul_eq_mul]

/-- Counting uncompressed blocks over a replicated uncompressed block. -/
lemma countUncompressed_replicate (n L c r : Nat) :
    countUncompressed (List.replicate n ⟨L, c, true, r⟩) = n := by
  simp [countUncompressed, List.filter_replicate]

/-- A compressed head does not count as uncompressed. -/
lemma countUncompressed_cons_false (b : VoxelBlock) (l : List VoxelBlock)
    (h : b.uncompressed = false) :
    countUncompressed (b :: l) = countUncompressed l := by
  simp [countUncompressed, List.filter_cons, h]

/-- The watermark sweep on the test queue's replicated blocks: starting
from `k - 1 + d` uncompressed blocks (the remaining `10 - (k - 1 + d)`
already compressed to `c` bytes each), the sweep compresses down to
exactly `k - 1` uncompressed blocks. The bound `(11 - k) * c < L` is the
test's own proviso that compressed payloads are small enough not to hold
the total above the low watermark (`CompressionTests.cpp:85`). -/
lemma tickLoop_replicate_count (L c k : Nat) (hk1 : 1 ≤ k) (hk10 : k ≤ 10)
    (hcL : c ≤ L) (hcb : (11 - k) * c < L) :
    ∀ d, k - 1 + d ≤ 10 →
      countUncompressed (tickLoop (k * L) ((k - 1 + d) * L + (10 - (k - 1 + d)) * c)
        (List.replicate (k - 1 + d) ⟨L, c, true, 0⟩)) = k - 1 := by
  intro d
  induction d with
  | zero =>
    intro _
    simp only [Nat.add_zero]
    have h11 : 10 - (k - 1) = 11 - k := by omega
    have hmul : (k - 1) * L + L = k * L := by
      have hk : k - 1 + 1 = k := by omega
      calc (k - 1) * L + L = (k - 1 + 1) * L := (Nat.succ_mul _ _).symm
        _ = k * L := by rw [hk]
    have hlt : (k - 1) * L + (10 - (k - 1)) * c < k * L := by
      rw [h11]
      omega
    rw [tickLoop_stop _ _ _ hlt, countUncompressed_replicate]
  | succ d ih =>
    intro hle
    have hle' : k - 1 + d ≤ 10 := by omega
    have hrepl : List.replicate (k - 1 + (d + 1)) (⟨L, c, true, 0⟩ : VoxelBlock) =
        ⟨L, c, true, 0⟩ :: List.replicate (k - 1 + d) ⟨L, c, true, 0⟩ := by
      rw [show k - 1 + (d + 1) = (k - 1 + d) + 1 from by omega, List.replicate_succ]
    rw [hrepl]
    have hs_ge : ¬ ((k - 1 + (d + 1)) * L + (10 - (k - 1 + (d + 1))) * c < k * L) := by
      have h1 : k * L ≤ (k - 1 + (d + 1)) * L := Nat.mul_le_mul_right L (by omega)
      omega
    rw [tickLoop, if_neg hs_ge]
    have helig : eligible ⟨L, c, true, 0⟩ = true := by
      simp [eligible]
    rw [if_pos helig]
    have hS : (k - 1 + (d + 1)) * L + (10 - (k - 1 + (d + 1))) * c - (L - c) =
        (k - 1 + d) * L + (10 - (k - 1 + d)) * c := by
      have e1 : (k - 1 + (d + 1)) * L = (k - 1 + d) * L + L := by
        rw [show k - 1 + (d + 1) = (k - 1 + d) + 1 from by omega, Nat.succ_mul]
      have e2 : (10 - (k - 1 + d)) * c = (10 - (k - 1 + (d + 1))) * c + c := by
        rw [show 10 - (k - 1 + d) = (10 - (k - 1 + (d + 1))) + 1 from by omega,
          Nat.succ_mul]
      omega
    rw [hS]
    rw [countUncompressed_cons_false _ _ rfl]
    exact ih hle'

/-- Evaluation of the column selection rule on the witness floor column. -/
lemma exFindSupportReal :
    findSupport 1 1 [VoxelState.occupied, VoxelState.free, VoxelState.free] =
      some (0, 2) := by
  rw [findSupport.eq_2]
  norm_num [clearRun]

/-- The selection rule finds no support in the witness virtual column. -/
lemma exFindSupportVirt :
    findSupport 1 1 [VoxelState.unknown, VoxelState.free, VoxelState.free] = none := by
  rw [findSupport.eq_3 1 1 VoxelState.unknown _ (fun hh => VoxelState.noConfusion hh)]
  rw [findSupport.eq_3 1 1 VoxelState.free _ (fun hh => VoxelState.noConfusion hh)]
  rw [findSupport.eq_3 1 1 VoxelState.free _ (fun hh => VoxelState.noConfusion hh)]
  rw [findSupport.eq_1]

/-- The witness virtual column's lowest virtual candidate sits at index 1. -/
lemma exLowestVirt :
    lowestVirtual [VoxelState.unknown, VoxelState.free, VoxelState.free] = some 1 := by
  rw [lowestVirtual, lowestVirtualFrom, lowestVirtualFrom]
  norm_num [isVirtualAt]

/-- Evaluation of the build on the witness floor source. -/
lemma exBuildReal : buildHeightmap (some exSrcReal) exCfg [] =
    (true, [((0, 0), ⟨1, 0, 2⟩)]) := by
  rw [buildHeightmap]
  rw [if_pos (show validParams exCfg = true from by rfl)]
  simp only [exSrcReal, List.map_cons, List.map_nil, exCfg]
  rw [selectColumn]
  rw [exFindSupportReal]
  norm_num

/-- Evaluation of the build on the witness virtual source. -/
lemma exBuildVirt : buildHeightmap (some exSrcVirt) exCfgVirt [] =
    (true, [((0, 0), ⟨-1, 1, 0⟩)]) := by
  rw [buildHeightmap]
  rw [if_pos (show validParams exCfgVirt = true from by rfl)]
  simp only [exSrcVirt, List.map_cons, List.map_nil, exCfgVirt]
  rw [selectColumn]
  rw [exFindSupportVirt]
  simp only [if_true]
  rw [exLowestVirt]
  norm_num

end Lemmas

section Claims

/-- C1: for every heightmap voxel written by `buildHeightmap` with the
real-surface occupancy sentinel `+1.0`, the corresponding source column
holds an occupied voxel at the stored height, and the cumulative free
space immediately above it along the up axis measures at least
`min_clearance`, or the column terminates in unbounded free space and the
reported clearance is the bounded measurement or the `0` sentinel. -/
theorem c1_real_surface_invariant (src : BuildInput) (cfg : HeightmapCfg)
    (hm out : HeightmapGrid) (key : ColIndex) (v : HeightmapCell)
    (hbuild : buildHeightmap (some src) cfg hm = (true, out))
    (hmem : (key, v) ∈ out) (hocc : v.occupancy = 1) :
    ∃ base col, (key, base, col) ∈ src.columns ∧
      ∃ i : Nat, v.height = base + (i : ℚ) * cfg.resolution ∧
        col.get? i = some VoxelState.occupied ∧
        (cfg.minClearance ≤ cfg.resolution * (clearRun (List.drop (i + 1) col) : ℚ) ∨
          (i + 1 + clearRun (List.drop (i + 1) col) = col.length ∧
            (v.clearance = cfg.resolution * (clearRun (List.drop (i + 1) col) : ℚ) ∨
              v.clearance = 0))) := by
  obtain ⟨base, col, hcolmem, hv⟩ := buildHeightmap_mem src cfg hm out key v hbuild hmem
  subst hv
  obtain ⟨i, hh, hget, harm⟩ :=
    selectColumn_real cfg.resolution cfg.minClearance cfg.generateVirtualSurface base col hocc
  exact ⟨base, col, hcolmem, i, hh, hget, harm⟩

/-- Witness for C1 at the flat-floor column `[occupied, free, free]` with
resolution 1 and minimum clearance 1. -/
theorem c1_witness :
    ∃ base col, (((0 : Int), (0 : Int)), base, col) ∈ exSrcReal.columns ∧
      ∃ i : Nat, (⟨1, 0, 2⟩ : HeightmapCell).height = base + (i : ℚ) * exCfg.resolution ∧
        col.get? i = some VoxelState.occupied ∧
        (exCfg.minClearance ≤ exCfg.resolution * (clearRun (List.drop (i + 1) col) : ℚ) ∨
          (i + 1 + clearRun (List.drop (i + 1) col) = col.length ∧
            ((⟨1, 0, 2⟩ : HeightmapCell).clearance =
                exCfg.resolution * (clearRun (List.drop (i + 1) col) : ℚ) ∨
              (⟨1, 0, 2⟩ : HeightmapCell).clearance = 0))) :=
  c1_real_surface_invariant exSrcReal exCfg [] [((0, 0), ⟨1, 0, 2⟩)]
    ((0 : Int), (0 : Int)) ⟨1, 0, 2⟩ exBuildReal (List.mem_singleton.mpr rfl) rfl

/-- C2: for every heightmap voxel written by `buildHeightmap` with the
virtual-surface occupancy sentinel `-1.0`, virtual surface generation was
enabled, the source column has a free voxel at the stored height whose
immediate neighbour below along the up axis is unknown, that voxel is the
lowest such candidate, its reported clearance is `0`, and no occupied
voxel of the column satisfies the real-surface selection rule. -/
theorem c2_virtual_surface_invariant (src : BuildInput) (cfg : HeightmapCfg)
    (hm out : HeightmapGrid) (key : ColIndex) (v : HeightmapCell)
    (hbuild : buildHeightmap (some src) cfg hm = (true, out))
    (hmem : (key, v) ∈ out) (hocc : v.occupancy = -1) :
    cfg.generateVirtualSurface = true ∧
      ∃ base col, (key, base, col) ∈ src.columns ∧
        findSupport cfg.resolution cfg.minClearance col = none ∧
        ∃ j : Nat, v.height = base + (j : ℚ) * cfg.resolution ∧ 1 ≤ j ∧
          col.get? j = some VoxelState.free ∧
          col.get? (j - 1) = some VoxelState.unknown ∧
          (∀ t, t < j → isVirtualAt col t = false) ∧
          v.clearance = 0 := by
  obtain ⟨base, col, hcolmem, hv⟩ := buildHeightmap_mem src cfg hm out key v hbuild hmem
  subst hv
  obtain ⟨hvirt, hfs, j, hh, hj1, hjfree, hjunk, hmin, hc⟩ :=
    selectColumn_virtual cfg.resolution cfg.minClearance cfg.generateVirtualSurface
      base col hocc
  exact ⟨hvirt, base, col, hcolmem, hfs, j, hh, hj1, hjfree, hjunk, hmin, hc⟩

/-- Witness for C2 at the column `[unknown, free, free]` with virtual
surfaces enabled. -/
theorem c2_witness :
    exCfgVirt.generateVirtualSurface = true ∧
      ∃ base col, (((0 : Int), (0 : Int)), base, col) ∈ exSrcVirt.columns ∧
        findSupport exCfgVirt.resolution exCfgVirt.minClearance col = none ∧
        ∃ j : Nat, (⟨-1, 1, 0⟩ : HeightmapCell).height = base + (j : ℚ) * exCfgVirt.resolution ∧
          1 ≤ j ∧ col.get? j = some VoxelState.free ∧
          col.get? (j - 1) = some VoxelState.unknown ∧
          (∀ t, t < j → isVirtualAt col t = false) ∧
          (⟨-1, 1, 0⟩ : HeightmapCell).clearance = 0 :=
  c2_virtual_surface_invariant exSrcVirt exCfgVirt [] [((0, 0), ⟨-1, 1, 0⟩)]
    ((0 : Int), (0 : Int)) ⟨-1, 1, 0⟩ exBuildVirt (List.mem_singleton.mpr rfl) rfl

/-- C3 counterexample: with 10 registered blocks of `L = 100` bytes each
compressing to `c = 10` bytes, `high_water = 0` and `low_water = L * 2`
(`k = 2`), one regulator tick leaves 1 block uncompressed, not the
`10 - k + 1 = 9` the claim states. -/
theorem c3_watermark_counterexample :
    ¬ countUncompressed (tick (mkQueue10 100 10 2)).blocks = 10 - 2 + 1 := by decide

/-- C3 (amended): with 10 registered blocks of `L` bytes each compressing
to `c` bytes where `c ≤ L` and `(11 - k) * c < L`, `high_water = 0`,
`low_water = L * k` for `1 ≤ k ≤ 10` and no blocks retained, one regulator
tick leaves exactly `k - 1` blocks uncompressed — equivalently, it
compresses `10 - k + 1` blocks. -/
theorem c3_tick_watermark_blocks (L c k : Nat) (hk1 : 1 ≤ k) (hk10 : k ≤ 10)
    (hcL : c ≤ L) (hcb : (11 - k) * c < L) :
    countUncompressed (tick (mkQueue10 L c k)).blocks = k - 1 := by
  have hL : 0 < L := lt_of_le_of_lt (Nat.zero_le _) hcb
  rw [tick]
  rw [if_neg (by rw [estSize_mkQueue10]; simp [mkQueue10]; omega)]
  rw [estSize_mkQueue10]
  have h10 : k - 1 + (11 - k) = 10 := by omega
  have hrun := tickLoop_replicate_count L c k hk1 hk10 hcL hcb (11 - k) (by omega)
  rw [h10] at hrun
  simpa [mkQueue10] using hrun

/-- Witness for the amended C3 at `L = 100`, `c = 10`, `k = 5`. -/
theorem c3_witness : countUncompressed (tick (mkQueue10 100 10 5)).blocks = 5 - 1 :=
  c3_tick_watermark_blocks 100 10 5 (by decide) (by decide) (by decide) (by decide)

/-- C4: a retained voxel block is always uncompressed — `retain` leaves the
`Uncompressed` and `Locked` flags set on return, and a regulator tick
leaves any block with a positive reference count untouched at its
position, whatever the watermarks. -/
theorem c4_retained_blocks_uncompressed (b : VoxelBlock)
    (q : VoxelBlockCompressionQueue) (i : Nat) (bb : VoxelBlock) :
    ((retain b).uncompressed = true ∧ locked (retain b) = true) ∧
      (q.blocks.get? i = some bb → 0 < bb.refCount →
        (tick q).blocks.get? i = some bb) := by
  constructor
  · exact ⟨rfl, by simp [locked, retain]⟩
  · intro h hpos
    rw [tick]
    by_cases hh : estimatedAllocationSize q ≤ q.highWater
    · rw [if_pos hh]
      exact h
    · rw [if_neg hh]
      exact tickLoop_get_retained q.lowWater q.blocks _ i bb h hpos

/-- Witness for C4: retaining a compressed block, and a tick over a queue
holding one retained block under a zero high watermark. -/
theorem c4_witness :
    ((retain ⟨8, 2, false, 0⟩).uncompressed = true ∧
        locked (retain ⟨8, 2, false, 0⟩) = true) ∧
      (tick ⟨[⟨4, 1, true, 1⟩], 0, 0⟩).blocks.get? 0 = some ⟨4, 1, true, 1⟩ :=
  ⟨(c4_retained_blocks_uncompressed ⟨8, 2, false, 0⟩ ⟨[⟨4, 1, true, 1⟩], 0, 0⟩ 0
      ⟨4, 1, true, 1⟩).1,
    (c4_retained_blocks_uncompressed ⟨8, 2, false, 0⟩ ⟨[⟨4, 1, true, 1⟩], 0, 0⟩ 0
      ⟨4, 1, true, 1⟩).2 rfl (by decide)⟩

/-- C5: whenever the estimated allocation size is at or below the high
watermark, one regulator tick is a no-op: the queue (hence every block) is
unchanged and so is the estimated allocation size. -/
theorem c5_tick_below_high_water_noop (q : VoxelBlockCompressionQueue)
    (h : estimatedAllocationSize q ≤ q.highWater) :
    tick q = q ∧ estimatedAllocationSize (tick q) = estimatedAllocationSize q := by
  have ht : tick q = q := by rw [tick, if_pos h]
  exact ⟨ht, by rw [ht]⟩

/-- Witness for C5: a queue of one uncompressed block sitting below its
high watermark. -/
theorem c5_witness :
    tick ⟨[⟨4, 2, true, 0⟩], 5, 0⟩ = ⟨[⟨4, 2, true, 0⟩], 5, 0⟩ ∧
      estimatedAllocationSize (tick ⟨[⟨4, 2, true, 0⟩], 5, 0⟩) =
        estimatedAllocationSize ⟨[⟨4, 2, true, 0⟩], 5, 0⟩ :=
  c5_tick_below_high_water_noop ⟨[⟨4, 2, true, 0⟩], 5, 0⟩ (by decide)

/-- C6: for every signed primary up axis, the static basis mapping returns
unit vectors with `cross(axis_a, axis_b)` equal to `up_normal` exactly,
and the axis of opposite sign carries the negated up normal. -/
theorem c6_up_axis_basis (a : UpAxis) :
    cross (surfaceAxisA a) (surfaceAxisB a) = upAxisNormal a ∧
      normSq (upAxisNormal a) = 1 ∧ normSq (surfaceAxisA a) = 1 ∧
      normSq (surfaceAxisB a) = 1 ∧
      upAxisNormal (negAxis a) = negV (upAxisNormal a) := by
  cases a <;> decide

/-- C7: collapsing a key to the heightmap's single slice is idempotent,
and the projected key addresses a cell of the single slice: its local and
region coordinates along the up axis are zero. -/
theorem c7_project_idempotent (a : UpAxis) (k : Key) :
    project a (project a k) = project a k ∧
      localUpCoord a (project a k) = 0 ∧ regionUpCoord a (project a k) = 0 := by
  cases a <;> exact ⟨rfl, rfl, rfl⟩

/-- C8: `getHeightmapVoxelPosition` replaces the height of a virtual or
uncertain voxel lying within the negative-obstacle radius of the reference
position with `ref_up - (r^2 - d^2) / r`, and any other voxel keeps its
stored height mapped through the signed up axis. -/
theorem c8_negative_obstacle_height (axis : UpAxis) (v : HMQueryVoxel)
    (refA refB refUp r : ℚ) :
    (((v.occupancy = none ∨ v.occupancy = some (-1)) ∧
        (v.cellA - refA) ^ 2 + (v.cellB - refB) ^ 2 < r ^ 2) →
      (getHeightmapVoxelPosition axis v refA refB refUp r).posUp =
        refUp - (r ^ 2 - ((v.cellA - refA) ^ 2 + (v.cellB - refB) ^ 2)) / r) ∧
    (¬ ((v.occupancy = none ∨ v.occupancy = some (-1)) ∧
        (v.cellA - refA) ^ 2 + (v.cellB - refB) ^ 2 < r ^ 2) →
      (getHeightmapVoxelPosition axis v refA refB refUp r).posUp =
        upSign axis * v.height) := by
  constructor
  · intro h
    rw [getHeightmapVoxelPosition, if_pos h]
  · intro h
    rw [getHeightmapVoxelPosition, if_neg h]

/-- Witness for C8: a virtual voxel at the reference position with radius
2 reports the parabola height, and a real-surface voxel keeps its stored
height through the `+Z` axis. -/
theorem c8_witness :
    (getHeightmapVoxelPosition UpAxis.kZ ⟨some (-1), 5, 0, 0, 0⟩ 0 0 0 2).posUp =
        0 - (2 ^ 2 - ((0 : ℚ) - 0) ^ 2 - ((0 : ℚ) - 0) ^ 2) / 2 ∧
      (getHeightmapVoxelPosition UpAxis.kZ ⟨some 1, 5, 0, 0, 0⟩ 0 0 0 2).posUp =
        upSign UpAxis.kZ * 5 := by
  constructor
  · have := (c8_negative_obstacle_height UpAxis.kZ ⟨some (-1), 5, 0, 0, 0⟩ 0 0 0 2).1
      ⟨Or.inr rfl, by norm_num⟩
    rw [this]
    norm_num
  · exact (c8_negative_obstacle_height UpAxis.kZ ⟨some 1, 5, 0, 0, 0⟩ 0 0 0 2).2
      (by
        rintro ⟨h, -⟩
        rcases h with h | h
        · exact Option.noConfusion h
        · rw [Option.some.injEq] at h
          norm_num at h)

/-- C9: `buildHeightmap` without a source occupancy map returns failure,
and any fatal failure leaves the heightmap grid exactly as it was before
the call — no partial heightmap is exposed. -/
theorem c9_build_no_source_fails (cfg : HeightmapCfg) (hm : HeightmapGrid)
    (src : Option BuildInput) :
    (src = none → (buildHeightmap src cfg hm).1 = false) ∧
      ((buildHeightmap src cfg hm).1 = false → (buildHeightmap src cfg hm).2 = hm) := by
  constructor
  · rintro rfl
    rfl
  · intro h
    cases src with
    | none => rfl
    | some s =>
      rw [buildHeightmap] at h ⊢
      by_cases hv : validParams cfg
      · rw [if_pos hv] at h
        simp at h
      · rw [if_neg hv]

/-- Witness for C9: building with no source map fails and leaves the empty
grid untouched. -/
theorem c9_witness :
    (buildHeightmap none exCfg []).1 = false ∧ (buildHeightmap none exCfg []).2 = [] :=
  ⟨(c9_build_no_source_fails exCfg [] none).1 rfl,
    (c9_build_no_source_fails exCfg [] none).2
      ((c9_build_no_source_fails exCfg [] none).1 rfl)⟩

/-- C10: constructing a heightmap with the default `region_size = 0`
argument behaves exactly as requesting the default region size of 128
voxels per side, with regions one voxel deep along the up axis. -/
theorem c10_default_region_size (res mc : ℚ) (a : UpAxis) :
    mkHeightmap res mc a 0 = mkHeightmap res mc a kDefaultRegionSize ∧
      (mkHeightmap res mc a 0).regionSize = 128 ∧
      regionDimAlong (mkHeightmap res mc a 0) (upAxisIndexN a) = 1 ∧
      regionDimAlong (mkHeightmap res mc a 0) ((upAxisIndexN a + 1) % 3) = 128 ∧
      regionDimAlong (mkHeightmap res mc a 0) ((upAxisIndexN a + 2) % 3) = 128 := by
  cases a <;> exact ⟨rfl, rfl, rfl, rfl, rfl⟩

end Claims

end Ohm
